import Mathlib

/-!
Verification development for the `authdelegate` server: an HTTP dispatcher
that forwards each request to the first configured upstream whose header or
cookie rule matches, together with its configuration validator.

The Go sources are embedded shallowly:

* `net/url.URL` becomes `NetURL`; `url.Parse` becomes `urlParse`, modelling
  the scheme scanner (`getscheme`), host/path/query splitting, and the
  "missing protocol scheme" error class.  On error Go returns a nil `*URL`.
* Go maps `map[string]int` become association lists `List (String × Nat)`
  updated by `mapIncr`.  Go's map iteration order is unspecified; the model
  enumerates entries in first-insertion order, one admissible order.
* Mutation of the `*AuthDelegateUpstream` pointers (setting `parsedURL`)
  becomes functional record update; `Validate` returns the updated options.
* A nil-pointer dereference (reading `.Scheme` of a nil `parsedURL`, or a
  reverse proxy bound to a nil URL) is modelled as `Option.none` /
  `Response.crash`.
* The filesystem consulted by `os.Stat` is an explicit parameter `FS`.
* `http.Request` becomes `Request`; header names are taken to be already in
  canonical MIME form, so `Header.Get` is first-entry lookup by string
  equality; the parsed `Cookie` header is carried as a field `cookies`.
-/

/-- The fields of Go's `net/url.URL` that this program reads. -/
structure NetURL where
  scheme : String
  host : String
  path : String
  rawQuery : String
deriving DecidableEq, Repr

/-- `getscheme` from `net/url`: scan for `scheme:`; a colon before any scheme
character is the error "missing protocol scheme"; a non-scheme character means
the whole input is the remainder and there is no scheme.  `orig` is the whole
input, `acc` the scheme characters read so far. -/
def getschemeAux (orig : List Char) : List Char → List Char → Except String (String × List Char)
  | [], _ => .ok ("", orig)
  | c :: rest, acc =>
    if ('a' ≤ c ∧ c ≤ 'z') ∨ ('A' ≤ c ∧ c ≤ 'Z') then
      getschemeAux orig rest (acc ++ [c])
    else if ('0' ≤ c ∧ c ≤ '9') ∨ c = '+' ∨ c = '-' ∨ c = '.' then
      if acc = [] then .ok ("", orig) else getschemeAux orig rest (acc ++ [c])
    else if c = ':' then
      if acc = [] then .error "missing protocol scheme"
      else .ok (String.mk acc, rest)
    else .ok ("", orig)

def getscheme (raw : String) : Except String (String × List Char) :=
  getschemeAux raw.data raw.data []

/-- ASCII lowercasing of a scheme character (what `strings.ToLower` does on
the characters `getscheme` accepts). -/
def charToLower (c : Char) : Char :=
  if 'A' ≤ c ∧ c ≤ 'Z' then Char.ofNat (c.toNat + 32) else c

def schemeToLower (s : String) : String := String.mk (s.data.map charToLower)

/-- Split at the first occurrence of `c`; the second component is what follows
that occurrence (empty when `c` is absent). -/
def splitFirst (c : Char) : List Char → (List Char × List Char)
  | [] => ([], [])
  | x :: rest =>
    if x = c then ([], rest)
    else
      let (a, b) := splitFirst c rest
      (x :: a, b)

/-- The authority component ends at the first `/`; the path keeps its `/`. -/
def hostSplit : List Char → (List Char × List Char)
  | [] => ([], [])
  | c :: rest =>
    if c = '/' then ([], '/' :: rest)
    else
      let (h, p) := hostSplit rest
      (c :: h, p)

/-- Model of `url.Parse` restricted to what the program relies on: the
(lowercased) scheme, the host, the path and the raw query.  Errors are
wrapped the way `url.Error` renders them.  (Go's parser has further error
classes — bad escapes, bad ports — with the same nil-URL error behaviour.) -/
def urlParse (raw : String) : Except String NetURL :=
  match getscheme raw with
  | .error e => .error ("parse " ++ raw ++ ": " ++ e)
  | .ok (scheme, rest) =>
    let scheme := schemeToLower scheme
    let (rest, _fragment) := splitFirst '#' rest
    let (rest, query) := splitFirst '?' rest
    if rest.take 2 = ['/', '/'] then
      let (host, path) := hostSplit (rest.drop 2)
      .ok { scheme, host := String.mk host, path := String.mk path,
            rawQuery := String.mk query }
    else
      .ok { scheme, host := "", path := String.mk rest, rawQuery := String.mk query }

/-- `AuthDelegateUpstream` from the options file: raw URL, the two optional
match names, and the parsed URL filled in by validation (nil before). -/
structure AuthDelegateUpstream where
  URL : String
  HeaderName : String
  CookieName : String
  parsedURL : Option NetURL := none
deriving DecidableEq, Repr

/-- `AuthDelegateOptions`: port, TLS material paths, and the ordered
upstream list. -/
structure AuthDelegateOptions where
  Port : Int
  SslCert : String
  SslKey : String
  Upstreams : List AuthDelegateUpstream
deriving DecidableEq, Repr

/-- Outcome of `os.Stat` as the validator distinguishes it. -/
inductive FileStat where
  | notExist
  | permissionDenied
  | notRegular
  | regular
deriving DecidableEq, Repr

/-- The filesystem consulted for the TLS material paths. -/
def FS : Type := String → FileStat

def optionErrors (msgs : List String) : String :=
  "Invalid options:\n  " ++ String.intercalate "\n  " msgs

def validatePort (opts : AuthDelegateOptions) (msgs : List String) : List String :=
  if opts.Port ≤ 0 then
    msgs ++ ["port must be specified and greater than zero"]
  else msgs

def checkExistenceAndPermission (fs : FS) (path optionName : String)
    (msgs : List String) : List String :=
  match fs path with
  | .notExist => msgs ++ [optionName ++ " does not exist: " ++ path]
  | .permissionDenied => msgs ++ [optionName ++ " permission is denied: " ++ path]
  | .notRegular => msgs ++ [optionName ++ " is not a regular file: " ++ path]
  | .regular => msgs

def validateSsl (fs : FS) (opts : AuthDelegateOptions) (msgs : List String) :
    List String :=
  let certSpecified := opts.SslCert ≠ ""
  let keySpecified := opts.SslKey ≠ ""
  if ¬(certSpecified ∨ keySpecified) then msgs
  else
    let msgs :=
      if ¬(certSpecified ∧ keySpecified) then
        msgs ++ ["ssl-cert and ssl-key must both be specified, or neither must be"]
      else msgs
    let msgs :=
      if certSpecified then checkExistenceAndPermission fs opts.SslCert "ssl-cert" msgs
      else msgs
    if keySpecified then checkExistenceAndPermission fs opts.SslKey "ssl-key" msgs
    else msgs

/-- `validateUpstream`.  On a parse failure Go appends
`"upstream URL failed to parse" + err.Error()` and leaves `parsedURL` nil;
the very next line reads `upstream.parsedURL.Scheme`, a nil-pointer
dereference, modelled as `none`; the recorded message list is lost in the
panic. -/
def validateUpstream (upstream : AuthDelegateUpstream) (msgs : List String) :
    Option (AuthDelegateUpstream × List String) :=
  match urlParse upstream.URL with
  | .error e =>
      let _msgs := msgs ++ ["upstream URL failed to parse" ++ e]
      none
  | .ok pu =>
      let upstream := { upstream with parsedURL := some pu }
      let scheme := pu.scheme
      let msgs :=
        if scheme = "" then
          msgs ++ ["upstream scheme not specified: " ++ upstream.URL]
        else if ¬(scheme = "http" ∨ scheme = "https") then
          msgs ++ ["invalid upstream scheme: " ++ upstream.URL]
        else msgs
      let msgs :=
        if upstream.HeaderName ≠ "" ∧ upstream.CookieName ≠ "" then
          msgs ++ ["both header_name and cookie_name defined: " ++ upstream.URL]
        else msgs
      some (upstream, msgs)

/-- `counts[name]++` on a Go map, as an association list in first-insertion
order. -/
def mapIncr : List (String × Nat) → String → List (String × Nat)
  | [], k => [(k, 1)]
  | (k', n) :: rest, k =>
    if k' = k then (k', n + 1) :: rest else (k', n) :: mapIncr rest k

/-- `validateNameCounts`: drop the empty name, collect the names counted more
than once, and report them comma-joined.  Go ranges over the map in an
unspecified order; here the entries appear in first-insertion order. -/
def validateNameCounts (category : String) (counts : List (String × Nat))
    (msgs : List String) : List String :=
  let counts := counts.filter (fun p => p.1 ≠ "")
  let repeatedNames := (counts.filter (fun p => 1 < p.2)).map Prod.fst
  if repeatedNames = [] then msgs
  else
    msgs ++ ["repeated " ++ category ++ ": " ++ String.intercalate ", " repeatedNames]

def validateDefaultUpstreams (defaultUpstreams : List String)
    (lastUpstream : AuthDelegateUpstream) (msgs : List String) : List String :=
  match defaultUpstreams.getLast? with
  | none => msgs
  | some lastDefault =>
    if 1 < defaultUpstreams.length then
      msgs ++ ["multiple upstreams without header_name or cookie_name"]
    else if lastDefault ≠ lastUpstream.URL then
      msgs ++ ["upstream without header_name or cookie_name not last in upstream list: "
               ++ lastDefault]
    else msgs

/-- The loop body of `validateUpstreams`: validate each upstream (mutating its
`parsedURL`), collect default upstream URLs, and count cookie and header
names.  A panic inside `validateUpstream` aborts the whole loop. -/
def upstreamsLoop :
    List AuthDelegateUpstream → List String → List String →
    List (String × Nat) → List (String × Nat) →
    Option (List AuthDelegateUpstream × List String × List String ×
            List (String × Nat) × List (String × Nat))
  | [], msgs, defaults, cookieNames, headerNames =>
      some ([], msgs, defaults, cookieNames, headerNames)
  | u :: rest, msgs, defaults, cookieNames, headerNames =>
      match validateUpstream u msgs with
      | none => none
      | some (u', msgs') =>
        let defaults' :=
          if u'.HeaderName = "" ∧ u'.CookieName = "" then defaults ++ [u'.URL]
          else defaults
        match upstreamsLoop rest msgs' defaults'
            (mapIncr cookieNames u'.CookieName) (mapIncr headerNames u'.HeaderName) with
        | none => none
        | some (us, m, d, cn, hn) => some (u' :: us, m, d, cn, hn)

def validateUpstreams (opts : AuthDelegateOptions) (msgs : List String) :
    Option (AuthDelegateOptions × List String) :=
  if opts.Upstreams = [] then some (opts, msgs ++ ["no upstreams defined"])
  else
    match upstreamsLoop opts.Upstreams msgs [] [] [] with
    | none => none
    | some (us, msgs, defaultUpstreams, cookieNames, headerNames) =>
      let msgs := validateNameCounts "cookie names" cookieNames msgs
      let msgs := validateNameCounts "header names" headerNames msgs
      match us.getLast? with
      | none => some ({ opts with Upstreams := us }, msgs)
      | some lastUpstream =>
        some ({ opts with Upstreams := us },
              validateDefaultUpstreams defaultUpstreams lastUpstream msgs)

/-- `AuthDelegateOptions.Validate`: run the three validators in order; the
result pairs the options (with `parsedURL` caches filled) with the collected
messages — Go reports an error exactly when the list is non-empty.  `none` is
the panic of `validateUpstream`. -/
def Validate (fs : FS) (opts : AuthDelegateOptions) :
    Option (AuthDelegateOptions × List String) :=
  let msgs := validatePort opts []
  let msgs := validateSsl fs opts msgs
  validateUpstreams opts msgs

/-- The validate-and-return tail of `NewAuthDelegateOptionsFromJSON` (JSON
decoding itself is out of scope): the options object is produced only when
validation emitted no message. -/
def NewAuthDelegateOptions (fs : FS) (opts : AuthDelegateOptions) :
    Option (Except String AuthDelegateOptions) :=
  match Validate fs opts with
  | none => none
  | some (opts', msgs) =>
    if msgs = [] then some (.ok opts') else some (.error (optionErrors msgs))

/-- The parts of `http.Request` this program reads or writes.  `headers` maps
canonical header names to their value lists; `cookies` is the parsed `Cookie`
header; `requestURI` is the verbatim request-target from the request line. -/
structure Request where
  method : String
  url : NetURL
  requestURI : String
  headers : List (String × List String)
  cookies : List (String × String)
  body : String
deriving DecidableEq, Repr

/-- `http.Header.Get`: first value stored under the (canonical) key, `""`
when the key is absent or has no values. -/
def headerGet (headers : List (String × List String)) (key : String) : String :=
  match headers.find? (fun p => p.1 == key) with
  | none => ""
  | some p => p.2.headD ""

/-- `http.Header.Set`: replace all values stored under the key. -/
def headerSet (headers : List (String × List String)) (key value : String) :
    List (String × List String) :=
  headers.filter (fun p => p.1 ≠ key) ++ [(key, [value])]

/-- `Request.Cookie`: the first cookie with the given name, `ErrNoCookie`
(here `none`) otherwise. -/
def reqCookie (req : Request) (name : String) : Option (String × String) :=
  req.cookies.find? (fun c => c.1 == name)

/-- One entry of the dispatch table (`authDelegate`): the two match names and
the reverse proxy bound to the upstream's parsed URL (`nil` when validation
never ran or failed). -/
structure authDelegate where
  headerName : String
  cookieName : String
  upstreamURL : Option NetURL
deriving DecidableEq, Repr

/-- `authDelegate.accepts`. -/
def accepts (delegate : authDelegate) (req : Request) : Bool :=
  if delegate.headerName ≠ "" then
    headerGet req.headers delegate.headerName != ""
  else if delegate.cookieName ≠ "" then
    (reqCookie req delegate.cookieName).isSome
  else true

/-- `NewAuthDelegate`: build the dispatch table by appending one entry per
configured upstream, in order. -/
def NewAuthDelegate (opts : AuthDelegateOptions) : List authDelegate :=
  opts.Upstreams.foldl
    (fun handlers upstream =>
      handlers ++ [{ headerName := upstream.HeaderName,
                     cookieName := upstream.CookieName,
                     upstreamURL := upstream.parsedURL }])
    []

/-- `singleJoiningSlash` from `net/http/httputil`. -/
def singleJoiningSlash (a b : String) : String :=
  let aslash := a.endsWith "/"
  let bslash := b.startsWith "/"
  if aslash ∧ bslash then a ++ b.drop 1
  else if ¬aslash ∧ ¬bslash then a ++ "/" ++ b
  else a ++ b

/-- The director installed by `httputil.NewSingleHostReverseProxy`: point the
request's URL at the target, joining paths and queries. -/
def singleHostDirector (target : NetURL) (req : Request) : Request :=
  let rawQuery :=
    if target.rawQuery = "" ∨ req.url.rawQuery = "" then
      target.rawQuery ++ req.url.rawQuery
    else target.rawQuery ++ "&" ++ req.url.rawQuery
  { req with
    url := { scheme := target.scheme, host := target.host,
             path := singleJoiningSlash target.path req.url.path,
             rawQuery := rawQuery } }

/-- The request transformation performed by the proxy built in
`newAuthDelegateReverseProxy`: run the single-host director, ensure
`X-Original-URI` is set (from `req.RequestURI` when `Get` returns `""`), log,
and finally overwrite the whole URL with the upstream URL. -/
def newAuthDelegateReverseProxy (url : NetURL) (req : Request) : Request :=
  let req := singleHostDirector url req
  let origURI := headerGet req.headers "X-Original-URI"
  let req :=
    if origURI = "" then
      { req with headers := headerSet req.headers "X-Original-URI" req.requestURI }
    else req
  { req with url := url }

/-- Observable outcome of `authDelegateHandler.ServeHTTP`: the request is
forwarded through the proxy of the rule at `idx`, or answered directly
(`http.Error` writes the given message and status), or the process panics
(proxy bound to a nil URL). -/
inductive Response where
  | forwarded (idx : Nat) (req : Request)
  | unauthorized (status : Nat) (body : String)
  | crash
deriving DecidableEq, Repr

def statusUnauthorized : Nat := 401

/-- The dispatch loop of `ServeHTTP`, carrying the index of the rule under
consideration. -/
def serveHTTPFrom (idx : Nat) :
    List authDelegate → Request → Response
  | [], _ => .unauthorized statusUnauthorized "unauthorized request"
  | upstream :: rest, req =>
    if accepts upstream req then
      match upstream.upstreamURL with
      | some url => .forwarded idx (newAuthDelegateReverseProxy url req)
      | none => .crash
    else serveHTTPFrom (idx + 1) rest req

/-- `authDelegateHandler.ServeHTTP`. -/
def ServeHTTP (handler : List authDelegate) (req : Request) : Response :=
  serveHTTPFrom 0 handler req

/-- Modelled from the spec: the "path plus query string" of a request, the
form the inbound request-target takes for an origin-form request arriving at
a live server (compare the test comment on `req.RequestURI`). -/
def specPathPlusQuery (req : Request) : String :=
  req.url.path ++ (if req.url.rawQuery = "" then "" else "?" ++ req.url.rawQuery)

/-! ### Concrete fixtures -/

/-- A filesystem on which every path is a readable regular file. -/
def fsAll : FS := fun _ => .regular

def uFoo : NetURL := { scheme := "https", host := "foo.com", path := "/auth", rawQuery := "" }

def uBar : NetURL := { scheme := "https", host := "bar.example", path := "/auth", rawQuery := "" }

def optsC1 : AuthDelegateOptions :=
  { Port := 443, SslCert := "", SslKey := "",
    Upstreams := [
      { URL := "https://foo.com/auth", HeaderName := "X-Signature", CookieName := "",
        parsedURL := some uFoo },
      { URL := "https://bar.example/auth", HeaderName := "", CookieName := "_cookie",
        parsedURL := some uBar }] }

def dC1 : authDelegate :=
  { headerName := "X-Signature", cookieName := "", upstreamURL := some uFoo }

def reqC1 : Request :=
  { method := "GET", url := { scheme := "", host := "", path := "/bar", rawQuery := "" },
    requestURI := "/bar", headers := [("X-Signature", ["sig"])],
    cookies := [("_cookie", "1")], body := "" }

def dC2 : authDelegate :=
  { headerName := "X-Signature", cookieName := "", upstreamURL := some uFoo }

def reqC2c : Request :=
  { method := "GET", url := { scheme := "", host := "", path := "/", rawQuery := "" },
    requestURI := "/", headers := [("X-Signature", [""])], cookies := [], body := "" }

def reqC2w : Request := { reqC2c with headers := [("X-Signature", ["foobar"])] }

def uC3 : NetURL := { scheme := "http", host := "up.example", path := "/auth", rawQuery := "" }

def reqC3 : Request :=
  { method := "GET",
    url := { scheme := "http", host := "site.example", path := "/bar", rawQuery := "quux" },
    requestURI := "/bar?quux", headers := [("Accept", ["text/html"])],
    cookies := [], body := "hello" }

def reqC4c : Request := { reqC3 with headers := [("X-Original-URI", [""])] }

def reqC5 : Request :=
  { method := "GET", url := { scheme := "", host := "", path := "/", rawQuery := "" },
    requestURI := "/", headers := [], cookies := [], body := "" }

/-! ### Header map lemmas -/

theorem find_filter_ne_none (hs : List (String × List String)) (k : String) :
    (hs.filter (fun p => p.1 ≠ k)).find? (fun p => p.1 == k) = none := by
  rw [List.find?_eq_none]
  intro x hx
  have hx' := (List.mem_filter.mp hx).2
  simp only [decide_eq_true_eq] at hx'
  simp [hx']

theorem find_filter_ne_other (hs : List (String × List String)) (k k' : String)
    (hk : k' ≠ k) :
    (hs.filter (fun p => p.1 ≠ k)).find? (fun p => p.1 == k') =
      hs.find? (fun p => p.1 == k') := by
  induction hs with
  | nil => simp
  | cons p rest ih =>
    by_cases h : p.1 = k
    · have hb : (p.1 == k') = false := beq_eq_false_iff_ne.mpr (by rw [h]; exact Ne.symm hk)
      simp only [List.filter_cons, List.find?_cons, hb]
      rw [if_neg (by simp [h])]
      exact ih
    · simp only [List.filter_cons]
      rw [if_pos (by simp [h])]
      simp only [List.find?_cons]
      cases hpk : (p.1 == k') with
      | true => simp only [hpk]
      | false => simp only [hpk]; exact ih

theorem find_headerSet_self (hs : List (String × List String)) (k v : String) :
    (headerSet hs k v).find? (fun p => p.1 == k) = some (k, [v]) := by
  rw [headerSet, List.find?_append, find_filter_ne_none]
  simp [List.find?_cons]

theorem find_headerSet_ne (hs : List (String × List String)) (k v k' : String)
    (hk : k' ≠ k) :
    (headerSet hs k v).find? (fun p => p.1 == k') = hs.find? (fun p => p.1 == k') := by
  have hb : (k == k') = false := beq_eq_false_iff_ne.mpr (Ne.symm hk)
  rw [headerSet, List.find?_append, find_filter_ne_other hs k k' hk]
  cases hfind : hs.find? (fun p => p.1 == k') <;> simp [List.find?_cons, hb]

theorem headerGet_headerSet_self (hs : List (String × List String)) (k v : String) :
    headerGet (headerSet hs k v) k = v := by
  simp [headerGet, find_headerSet_self]

theorem headerGet_headerSet_ne (hs : List (String × List String)) (k v k' : String)
    (hk : k' ≠ k) :
    headerGet (headerSet hs k v) k' = headerGet hs k' := by
  simp [headerGet, find_headerSet_ne hs k v k' hk]

/-! ### Dispatch lemmas -/

theorem foldl_append_singleton {α β : Type} (f : α → β) :
    ∀ (l : List α) (acc : List β),
      l.foldl (fun hs u => hs ++ [f u]) acc = acc ++ l.map f := by
  intro l
  induction l with
  | nil => intro acc; simp
  | cons a l ih => intro acc; simp [List.foldl_cons, ih]

theorem NewAuthDelegate_eq_map (opts : AuthDelegateOptions) :
    NewAuthDelegate opts = opts.Upstreams.map (fun u =>
      { headerName := u.HeaderName, cookieName := u.CookieName,
        upstreamURL := u.parsedURL }) := by
  simpa [NewAuthDelegate] using foldl_append_singleton _ opts.Upstreams []

theorem serveHTTPFrom_forwarded :
    ∀ (rules : List authDelegate) (k i : Nat) (d : authDelegate) (u : NetURL)
      (req : Request),
      rules[i]? = some d → accepts d req = true →
      (∀ j e, j < i → rules[j]? = some e → accepts e req = false) →
      d.upstreamURL = some u →
      serveHTTPFrom k rules req = .forwarded (k + i) (newAuthDelegateReverseProxy u req) := by
  intro rules
  induction rules with
  | nil => intro k i d u req hget; simp at hget
  | cons r rest ih =>
    intro k i d u req hget hacc hmin hurl
    cases i with
    | zero =>
      simp at hget
      subst hget
      simp [serveHTTPFrom, hacc, hurl]
    | succ n =>
      have h0 : accepts r req = false := hmin 0 r (Nat.succ_pos n) (by simp)
      have hrec := ih (k + 1) n d u req (by simpa using hget) hacc
        (fun j e hj hje => hmin (j + 1) e (by omega) (by simpa using hje)) hurl
      rw [show k + (n + 1) = (k + 1) + n from by omega]
      simpa [serveHTTPFrom, h0] using hrec

theorem serveHTTPFrom_unauthorized :
    ∀ (rules : List authDelegate) (k : Nat) (req : Request),
      (∀ d ∈ rules, accepts d req = false) →
      serveHTTPFrom k rules req = .unauthorized statusUnauthorized "unauthorized request" := by
  intro rules
  induction rules with
  | nil => intro k req _; simp [serveHTTPFrom]
  | cons r rest ih =>
    intro k req hno
    have h0 : accepts r req = false := hno r (by simp)
    simp [serveHTTPFrom, h0]
    exact ih (k + 1) req (fun d hd => hno d (by simp [hd]))

/-! ### Claims C1 – C5 -/

/-- C1: for every configuration and request, the dispatch table lists the
rules in the order the upstreams were configured, and `ServeHTTP` forwards
the request through the first (lowest-index) rule that matches — in
particular, when both a header rule and a cookie rule match, the rule of
lower index wins. -/
theorem C1_first_matching_rule_wins (opts : AuthDelegateOptions) (req : Request)
    (i : Nat) (d : authDelegate) (u : NetURL)
    (hget : (NewAuthDelegate opts)[i]? = some d)
    (hacc : accepts d req = true)
    (hmin : ∀ j e, j < i → (NewAuthDelegate opts)[j]? = some e → accepts e req = false)
    (hurl : d.upstreamURL = some u) :
    NewAuthDelegate opts = opts.Upstreams.map (fun up =>
      { headerName := up.HeaderName, cookieName := up.CookieName,
        upstreamURL := up.parsedURL }) ∧
    ServeHTTP (NewAuthDelegate opts) req =
      .forwarded i (newAuthDelegateReverseProxy u req) := by
  refine ⟨NewAuthDelegate_eq_map opts, ?_⟩
  have h := serveHTTPFrom_forwarded (NewAuthDelegate opts) 0 i d u req hget hacc hmin hurl
  simpa [ServeHTTP] using h

/-- Witness for C1: a header rule listed first and a cookie rule listed
second, on a request carrying both the header and the cookie; the header
rule (index 0) wins. -/
theorem C1_first_matching_rule_wins_witness :
    NewAuthDelegate optsC1 = optsC1.Upstreams.map (fun up =>
      { headerName := up.HeaderName, cookieName := up.CookieName,
        upstreamURL := up.parsedURL }) ∧
    ServeHTTP (NewAuthDelegate optsC1) reqC1 =
      .forwarded 0 (newAuthDelegateReverseProxy uFoo reqC1) :=
  C1_first_matching_rule_wins optsC1 reqC1 0 dC1 uFoo (by decide) (by decide)
    (fun j e hj _ => absurd hj (Nat.not_lt_zero j)) rfl

/-- C2, corrected: a rule with a non-empty `headerName` matches iff
`Header.Get` yields a non-empty value for that name — i.e. the header is
present with a non-empty (first) value; mere presence with an empty value
does not match. -/
theorem C2_header_match_iff_nonempty_value (d : authDelegate) (req : Request)
    (h : d.headerName ≠ "") :
    accepts d req = true ↔ headerGet req.headers d.headerName ≠ "" := by
  simp [accepts, h]

/-- Witness for C2's corrected statement, at a request carrying
`X-Signature: foobar`. -/
theorem C2_header_match_iff_nonempty_value_witness :
    (accepts dC2 reqC2w = true ↔ headerGet reqC2w.headers dC2.headerName ≠ "") ∧
    accepts dC2 reqC2w = true :=
  ⟨C2_header_match_iff_nonempty_value dC2 reqC2w (by decide), by decide⟩

/-- Counterexample to C2 as stated: the request carries the header
`X-Signature` (with the empty string as value), yet the rule does not
match. -/
theorem C2_counterexample :
    (reqC2c.headers.any fun p => p.1 == "X-Signature") = true ∧
    accepts dC2 reqC2c = false := by decide

/-- C3, corrected: forwarding rewrites the request's destination URL
entirely to the rule's upstream address — scheme, host, path and query all
become the upstream's — while the method, the body, and every header other
than `X-Original-URI` are preserved verbatim.  The inbound path and query
are not preserved on the URL (they survive only in `X-Original-URI`). -/
theorem C3_forwarding_rewrites_destination (u : NetURL) (req : Request) :
    (newAuthDelegateReverseProxy u req).url = u ∧
    (newAuthDelegateReverseProxy u req).method = req.method ∧
    (newAuthDelegateReverseProxy u req).body = req.body ∧
    ∀ k, k ≠ "X-Original-URI" →
      headerGet (newAuthDelegateReverseProxy u req).headers k = headerGet req.headers k := by
  refine ⟨?_, ?_, ?_, fun k hk => ?_⟩ <;>
    by_cases h : headerGet req.headers "X-Original-URI" = "" <;>
      simp only [newAuthDelegateReverseProxy, singleHostDirector, h, ite_true,
        ite_false, not_false_eq_true, if_true, if_false, if_pos, if_neg]
  case pos => exact headerGet_headerSet_ne _ _ _ _ hk

/-- Witness for C3's corrected statement at a concrete upstream and
request, with the preserved header instantiated at `Accept`. -/
theorem C3_forwarding_rewrites_destination_witness :
    (newAuthDelegateReverseProxy uC3 reqC3).url = uC3 ∧
    (newAuthDelegateReverseProxy uC3 reqC3).method = reqC3.method ∧
    (newAuthDelegateReverseProxy uC3 reqC3).body = reqC3.body ∧
    headerGet (newAuthDelegateReverseProxy uC3 reqC3).headers "Accept" =
      headerGet reqC3.headers "Accept" :=
  ⟨(C3_forwarding_rewrites_destination uC3 reqC3).1,
   (C3_forwarding_rewrites_destination uC3 reqC3).2.1,
   (C3_forwarding_rewrites_destination uC3 reqC3).2.2.1,
   (C3_forwarding_rewrites_destination uC3 reqC3).2.2.2 "Accept" (by decide)⟩

/-- Counterexample to C3 as stated: the forwarded request's path and query
are the upstream's (`/auth`, empty), not the inbound ones (`/bar`,
`quux`). -/
theorem C3_counterexample :
    (newAuthDelegateReverseProxy uC3 reqC3).url.path = "/auth" ∧
    reqC3.url.path = "/bar" ∧
    (newAuthDelegateReverseProxy uC3 reqC3).url.rawQuery = "" ∧
    reqC3.url.rawQuery = "quux" ∧
    ("/auth" : String) ≠ "/bar" ∧ ("" : String) ≠ "quux" := by decide

/-- C4, corrected: when `Header.Get "X-Original-URI"` on the inbound request
is empty — the header absent, or present with an empty value — the
forwarded request carries `X-Original-URI` set to the inbound request-target
(path plus query); when the inbound value is non-empty it is passed through
byte-identically. -/
theorem C4_x_original_uri (u : NetURL) (req : Request)
    (h : req.requestURI = specPathPlusQuery req) :
    (headerGet req.headers "X-Original-URI" = "" →
      headerGet (newAuthDelegateReverseProxy u req).headers "X-Original-URI" =
        specPathPlusQuery req) ∧
    (headerGet req.headers "X-Original-URI" ≠ "" →
      headerGet (newAuthDelegateReverseProxy u req).headers "X-Original-URI" =
        headerGet req.headers "X-Original-URI") := by
  constructor
  · intro h0
    simp only [newAuthDelegateReverseProxy, singleHostDirector]
    rw [if_pos (by exact h0)]
    simpa [headerGet_headerSet_self] using h
  · intro h0
    simp only [newAuthDelegateReverseProxy, singleHostDirector]
    rw [if_neg (by exact h0)]

/-- Witness for C4's corrected statement: on a request without the header,
the forwarded request carries `X-Original-URI = /bar?quux`. -/
theorem C4_x_original_uri_witness :
    headerGet reqC3.headers "X-Original-URI" = "" ∧
    headerGet (newAuthDelegateReverseProxy uC3 reqC3).headers "X-Original-URI" =
      specPathPlusQuery reqC3 :=
  ⟨by decide, (C4_x_original_uri uC3 reqC3 (by decide)).1 (by decide)⟩

/-- Counterexample to C4 as stated: the inbound request carries
`X-Original-URI` with the empty value, and the forwarded request's value is
`/bar?quux`, not byte-identical to the inbound empty value. -/
theorem C4_counterexample :
    reqC4c.headers = [("X-Original-URI", [""])] ∧
    headerGet (newAuthDelegateReverseProxy uC3 reqC4c).headers "X-Original-URI" =
      "/bar?quux" ∧
    ("/bar?quux" : String) ≠ "" := by decide

/-- C5: a request matching no rule is answered directly with status exactly
401 and the plaintext message "unauthorized request", and is not forwarded
to any upstream. -/
theorem C5_unauthorized_when_no_match (opts : AuthDelegateOptions) (req : Request)
    (hno : ∀ d ∈ NewAuthDelegate opts, accepts d req = false) :
    ServeHTTP (NewAuthDelegate opts) req = .unauthorized 401 "unauthorized request" := by
  have h := serveHTTPFrom_unauthorized (NewAuthDelegate opts) 0 req hno
  simpa [ServeHTTP, statusUnauthorized] using h

/-- Witness for C5: a header rule and a cookie rule, and a request carrying
neither. -/
theorem C5_unauthorized_when_no_match_witness :
    ServeHTTP (NewAuthDelegate optsC1) reqC5 = .unauthorized 401 "unauthorized request" :=
  C5_unauthorized_when_no_match optsC1 reqC5 (by decide)

/-! ### Validation lemmas -/

/-- The URLs of the upstreams with neither match name set, in list order:
the `defaultUpstreams` collected by the loop of `validateUpstreams`. -/
def defaultURLs : List AuthDelegateUpstream → List String
  | [] => []
  | u :: rest =>
    (if u.HeaderName = "" ∧ u.CookieName = "" then [u.URL] else []) ++ defaultURLs rest

theorem validateUpstream_some {u u' : AuthDelegateUpstream} {msgs msgs' : List String}
    (h : validateUpstream u msgs = some (u', msgs')) :
    ∃ pu t, urlParse u.URL = .ok pu ∧ u' = { u with parsedURL := some pu } ∧
      msgs' = msgs ++ t ∧
      (t = [] → (pu.scheme = "http" ∨ pu.scheme = "https") ∧
        (u.HeaderName = "" ∨ u.CookieName = "")) := by
  cases hp : urlParse u.URL with
  | error e => simp [validateUpstream, hp] at h
  | ok pu =>
    by_cases hA : pu.scheme = ""
    · by_cases hC : u.HeaderName ≠ "" ∧ u.CookieName ≠ ""
      · simp [validateUpstream, hp, hA, hC] at h
        exact ⟨pu, ["upstream scheme not specified: " ++ u.URL,
                    "both header_name and cookie_name defined: " ++ u.URL],
               rfl, h.1.symm, by simp [← h.2], by simp⟩
      · simp [validateUpstream, hp, hA, hC] at h
        exact ⟨pu, ["upstream scheme not specified: " ++ u.URL],
               rfl, h.1.symm, by simp [← h.2], by simp⟩
    · by_cases hB : pu.scheme = "http" ∨ pu.scheme = "https"
      · by_cases hC : u.HeaderName ≠ "" ∧ u.CookieName ≠ ""
        · simp [validateUpstream, hp, hA, hB, hC] at h
          exact ⟨pu, ["both header_name and cookie_name defined: " ++ u.URL],
                 rfl, h.1.symm, by simp [← h.2], by simp⟩
        · simp [validateUpstream, hp, hA, hB, hC] at h
          refine ⟨pu, [], rfl, h.1.symm, by simp [← h.2], ?_⟩
          intro _
          exact ⟨hB, by tauto⟩
      · by_cases hC : u.HeaderName ≠ "" ∧ u.CookieName ≠ ""
        · simp [validateUpstream, hp, hA, hB, hC] at h
          exact ⟨pu, ["invalid upstream scheme: " ++ u.URL,
                      "both header_name and cookie_name defined: " ++ u.URL],
                 rfl, h.1.symm, by simp [← h.2], by simp⟩
        · simp [validateUpstream, hp, hA, hB, hC] at h
          exact ⟨pu, ["invalid upstream scheme: " ++ u.URL],
                 rfl, h.1.symm, by simp [← h.2], by simp⟩

theorem upstreamsLoop_some :
    ∀ (us : List AuthDelegateUpstream) (msgs ds : List String)
      (cn hn : List (String × Nat))
      (us' : List AuthDelegateUpstream) (msgs' ds' : List String)
      (cn' hn' : List (String × Nat)),
      upstreamsLoop us msgs ds cn hn = some (us', msgs', ds', cn', hn') →
      ∃ t, msgs' = msgs ++ t ∧
        us'.map (fun x => x.URL) = us.map (fun x => x.URL) ∧
        ds' = ds ++ defaultURLs us ∧
        cn' = (us.map (fun x => x.CookieName)).foldl mapIncr cn ∧
        hn' = (us.map (fun x => x.HeaderName)).foldl mapIncr hn ∧
        (t = [] → ∀ x ∈ us', ∃ pu, x.parsedURL = some pu ∧
          (pu.scheme = "http" ∨ pu.scheme = "https") ∧
          (x.HeaderName = "" ∨ x.CookieName = "")) := by
  intro us
  induction us with
  | nil =>
    intro msgs ds cn hn us' msgs' ds' cn' hn' h
    simp only [upstreamsLoop, Option.some.injEq, Prod.mk.injEq] at h
    obtain ⟨h1, h2, h3, h4, h5⟩ := h
    subst h1
    subst h2
    subst h3
    subst h4
    subst h5
    exact ⟨[], by simp, rfl, by simp [defaultURLs], rfl, rfl, fun _ => by simp⟩
  | cons u rest ih =>
    intro msgs ds cn hn us' msgs' ds' cn' hn' h
    simp only [upstreamsLoop] at h
    cases hv : validateUpstream u msgs with
    | none => rw [hv] at h; simp at h
    | some p =>
      obtain ⟨u1, msgs1⟩ := p
      rw [hv] at h
      dsimp only [] at h
      obtain ⟨pu, t1, hparse, hu1, hm1, hinv1⟩ := validateUpstream_some hv
      have hH : u1.HeaderName = u.HeaderName := by rw [hu1]
      have hC : u1.CookieName = u.CookieName := by rw [hu1]
      have hU : u1.URL = u.URL := by rw [hu1]
      by_cases hd : u1.HeaderName = "" ∧ u1.CookieName = ""
      · rw [if_pos hd] at h
        cases hloop : upstreamsLoop rest msgs1 (ds ++ [u1.URL])
            (mapIncr cn u1.CookieName) (mapIncr hn u1.HeaderName) with
        | none => rw [hloop] at h; simp at h
        | some q =>
          obtain ⟨us2, m2, d2, c2, h2⟩ := q
          rw [hloop] at h
          dsimp only [] at h
          simp only [Option.some.injEq, Prod.mk.injEq] at h
          obtain ⟨hus, hm, hds, hcn, hhn⟩ := h
          obtain ⟨t2, hm2, hmap2, hds2, hcn2, hhn2, hinv2⟩ := ih _ _ _ _ _ _ _ _ _ hloop
          refine ⟨t1 ++ t2, ?_, ?_, ?_, ?_, ?_, ?_⟩
          · rw [← hm, hm2, hm1, List.append_assoc]
          · rw [← hus]; simp [hmap2, hU]
          · rw [← hds, hds2, defaultURLs, List.append_assoc]
            have : u.HeaderName = "" ∧ u.CookieName = "" := by
              rw [← hH, ← hC]; exact hd
            rw [if_pos this, hU]
          · rw [← hcn, hcn2, hC]; simp
          · rw [← hhn, hhn2, hH]; simp
          · intro ht
            obtain ⟨ht1, ht2⟩ := List.append_eq_nil.mp ht
            intro x hx
            rw [← hus] at hx
            rcases List.mem_cons.mp hx with hx1 | hx2
            · subst hx1
              obtain ⟨hs, hn⟩ := hinv1 ht1
              exact ⟨pu, by rw [hu1], hs, by rw [hH, hC]; exact hn⟩
            · exact hinv2 ht2 x hx2
      · rw [if_neg hd] at h
        cases hloop : upstreamsLoop rest msgs1 ds
            (mapIncr cn u1.CookieName) (mapIncr hn u1.HeaderName) with
        | none => rw [hloop] at h; simp at h
        | some q =>
          obtain ⟨us2, m2, d2, c2, h2⟩ := q
          rw [hloop] at h
          dsimp only [] at h
          simp only [Option.some.injEq, Prod.mk.injEq] at h
          obtain ⟨hus, hm, hds, hcn, hhn⟩ := h
          obtain ⟨t2, hm2, hmap2, hds2, hcn2, hhn2, hinv2⟩ := ih _ _ _ _ _ _ _ _ _ hloop
          refine ⟨t1 ++ t2, ?_, ?_, ?_, ?_, ?_, ?_⟩
          · rw [← hm, hm2, hm1, List.append_assoc]
          · rw [← hus]; simp [hmap2, hU]
          · rw [← hds, hds2, defaultURLs]
            have : ¬(u.HeaderName = "" ∧ u.CookieName = "") := by
              rw [← hH, ← hC]; exact hd
            rw [if_neg this]
            simp
          · rw [← hcn, hcn2, hC]; simp
          · rw [← hhn, hhn2, hH]; simp
          · intro ht
            obtain ⟨ht1, ht2⟩ := List.append_eq_nil.mp ht
            intro x hx
            rw [← hus] at hx
            rcases List.mem_cons.mp hx with hx1 | hx2
            · subst hx1
              obtain ⟨hs, hn⟩ := hinv1 ht1
              exact ⟨pu, by rw [hu1], hs, by rw [hH, hC]; exact hn⟩
            · exact hinv2 ht2 x hx2

theorem validateNameCounts_append (category : String) (counts : List (String × Nat))
    (msgs : List String) :
    ∃ t, validateNameCounts category counts msgs = msgs ++ t := by
  simp only [validateNameCounts]
  split
  · exact ⟨[], by simp⟩
  · exact ⟨_, rfl⟩

theorem validateDefaultUpstreams_append (ds : List String)
    (lastU : AuthDelegateUpstream) (msgs : List String) :
    ∃ t, validateDefaultUpstreams ds lastU msgs = msgs ++ t := by
  unfold validateDefaultUpstreams
  cases hgl : ds.getLast? with
  | none => exact ⟨[], by simp⟩
  | some lastDefault =>
    dsimp only []
    by_cases h1 : 1 < ds.length
    · rw [if_pos h1]
      exact ⟨_, rfl⟩
    · rw [if_neg h1]
      by_cases h2 : lastDefault ≠ lastU.URL
      · rw [if_pos h2]
        exact ⟨_, rfl⟩
      · rw [if_neg h2]
        exact ⟨[], by simp⟩

theorem validateUpstreams_some {opts opts' : AuthDelegateOptions}
    {msgs msgsOut : List String}
    (h : validateUpstreams opts msgs = some (opts', msgsOut))
    (hne : opts.Upstreams ≠ []) :
    ∃ us' m' ds cn hn lastU,
      upstreamsLoop opts.Upstreams msgs [] [] [] = some (us', m', ds, cn, hn) ∧
      opts' = { opts with Upstreams := us' } ∧
      us'.getLast? = some lastU ∧
      msgsOut = validateDefaultUpstreams ds lastU
        (validateNameCounts "header names" hn
          (validateNameCounts "cookie names" cn m')) := by
  unfold validateUpstreams at h
  rw [if_neg hne] at h
  cases hl : upstreamsLoop opts.Upstreams msgs [] [] [] with
  | none => rw [hl] at h; simp at h
  | some q =>
    obtain ⟨us', m', ds, cn, hn⟩ := q
    rw [hl] at h
    dsimp only [] at h
    cases hgl : us'.getLast? with
    | none =>
      obtain ⟨t, _, hmapeq, _⟩ := upstreamsLoop_some _ _ _ _ _ _ _ _ _ _ hl
      have hnil : us' = [] := List.getLast?_eq_none_iff.mp hgl
      rw [hnil] at hmapeq
      exact absurd (List.map_eq_nil_iff.mp hmapeq.symm) hne
    | some lastU =>
      rw [hgl] at h
      simp only [Option.some.injEq, Prod.mk.injEq] at h
      exact ⟨us', m', ds, cn, hn, lastU, rfl, h.1.symm, hgl, h.2.symm⟩

/-- Lookup of a key's count in the association-list model of a Go
`map[string]int` (0 when absent, as in Go). -/
def findCount (m : List (String × Nat)) (k : String) : Nat :=
  match m.find? (fun p => p.1 == k) with
  | none => 0
  | some p => p.2

theorem findCount_mapIncr_self (m : List (String × Nat)) (k : String) :
    findCount (mapIncr m k) k = findCount m k + 1 := by
  induction m with
  | nil => simp [mapIncr, findCount, List.find?]
  | cons p rest ih =>
    obtain ⟨k', n⟩ := p
    by_cases h : k' = k
    · subst h
      simp [mapIncr, findCount, List.find?_cons]
    · have hb : (k' == k) = false := beq_eq_false_iff_ne.mpr h
      simp only [mapIncr, if_neg h, findCount, List.find?_cons, hb]
      exact ih

theorem findCount_mapIncr_ne (m : List (String × Nat)) (k k' : String)
    (hk : k ≠ k') :
    findCount (mapIncr m k') k = findCount m k := by
  induction m with
  | nil =>
    have hb : (k' == k) = false := beq_eq_false_iff_ne.mpr (Ne.symm hk)
    simp [mapIncr, findCount, List.find?, hb]
  | cons p rest ih =>
    obtain ⟨k1, n⟩ := p
    by_cases h : k1 = k'
    · subst h
      have hb : (k1 == k) = false := beq_eq_false_iff_ne.mpr (Ne.symm hk)
      simp [mapIncr, findCount, List.find?_cons, hb]
    · simp only [mapIncr, if_neg h]
      cases hb : (k1 == k) with
      | true => simp [findCount, List.find?_cons, hb]
      | false =>
        simp only [findCount, List.find?_cons, hb] at ih ⊢
        exact ih

theorem findCount_foldl (names : List String) :
    ∀ (m : List (String × Nat)) (k : String),
      findCount (names.foldl mapIncr m) k = findCount m k + names.count k := by
  induction names with
  | nil => intro m k; simp
  | cons a rest ih =>
    intro m k
    rw [List.foldl_cons]
    by_cases h : a = k
    · subst h
      rw [ih (mapIncr m a) a, findCount_mapIncr_self]
      simp [List.count_cons]
      omega
    · rw [ih (mapIncr m a) k, findCount_mapIncr_ne m k a (Ne.symm h)]
      have hb : (a == k) = false := beq_eq_false_iff_ne.mpr h
      simp [List.count_cons, hb]

theorem findCount_mem (m : List (String × Nat)) (k : String)
    (h : 0 < findCount m k) : (k, findCount m k) ∈ m := by
  cases hf : m.find? (fun p => p.1 == k) with
  | none =>
    unfold findCount at h
    rw [hf] at h
    simp at h
  | some p =>
    unfold findCount at h ⊢
    rw [hf] at h ⊢
    dsimp only [] at h ⊢
    have hmem := List.mem_of_find?_eq_some hf
    have hp := List.find?_some hf
    have hk : p.1 = k := by simpa using hp
    obtain ⟨p1, p2⟩ := p
    simp only at hk
    subst hk
    exact hmem

theorem validateNameCounts_mem (category : String) (counts : List (String × Nat))
    (msgs : List String) (k : String) (n : Nat)
    (hmem : (k, n) ∈ counts) (hk : k ≠ "") (hn : 1 < n) :
    ∃ names, validateNameCounts category counts msgs =
        msgs ++ ["repeated " ++ category ++ ": " ++ String.intercalate ", " names] ∧
      k ∈ names ∧ "" ∉ names := by
  simp only [validateNameCounts]
  set repeatedNames :=
    ((counts.filter (fun p => p.1 ≠ "")).filter (fun p => 1 < p.2)).map Prod.fst with hrep
  have hkmem : k ∈ repeatedNames := by
    rw [hrep]
    exact List.mem_map.mpr ⟨(k, n),
      List.mem_filter.mpr ⟨List.mem_filter.mpr ⟨hmem, by simp [hk]⟩, by simp [hn]⟩, rfl⟩
  have hnonnil : repeatedNames ≠ [] := List.ne_nil_of_mem hkmem
  rw [if_neg hnonnil]
  refine ⟨repeatedNames, rfl, hkmem, ?_⟩
  intro hbad
  obtain ⟨p, hp, hfst⟩ := List.mem_map.mp hbad
  have := (List.mem_filter.mp (List.mem_filter.mp hp).1).2
  rw [hfst] at this
  simp at this

/-! ### Fixtures for the validator claims -/

def uBarHTTP : NetURL := { scheme := "http", host := "bar.example", path := "/auth", rawQuery := "" }

def uH1 : NetURL := { scheme := "https", host := "h1.example", path := "/auth", rawQuery := "" }

def uH2 : NetURL := { scheme := "https", host := "h2.example", path := "/auth", rawQuery := "" }

def u127 : NetURL := { scheme := "http", host := "127.0.0.1:8080", path := "/auth", rawQuery := "" }

/-- A default upstream listed first whose URL coincides with the last
upstream's URL. -/
def optsC6c : AuthDelegateOptions :=
  { Port := 443, SslCert := "", SslKey := "",
    Upstreams := [
      { URL := "https://foo.com/auth", HeaderName := "", CookieName := "" },
      { URL := "https://foo.com/auth", HeaderName := "X-Signature", CookieName := "" }] }

def optsC6cP : AuthDelegateOptions :=
  { Port := 443, SslCert := "", SslKey := "",
    Upstreams := [
      { URL := "https://foo.com/auth", HeaderName := "", CookieName := "",
        parsedURL := some uFoo },
      { URL := "https://foo.com/auth", HeaderName := "X-Signature", CookieName := "",
        parsedURL := some uFoo }] }

/-- A default upstream listed first whose URL differs from the last
upstream's URL. -/
def optsC6w : AuthDelegateOptions :=
  { Port := 443, SslCert := "", SslKey := "",
    Upstreams := [
      { URL := "https://foo.com/auth", HeaderName := "", CookieName := "" },
      { URL := "http://bar.example/auth", HeaderName := "X-Signature", CookieName := "" }] }

def optsC6wP : AuthDelegateOptions :=
  { Port := 443, SslCert := "", SslKey := "",
    Upstreams := [
      { URL := "https://foo.com/auth", HeaderName := "", CookieName := "",
        parsedURL := some uFoo },
      { URL := "http://bar.example/auth", HeaderName := "X-Signature", CookieName := "",
        parsedURL := some uBarHTTP }] }

def upC6wLast : AuthDelegateUpstream :=
  { URL := "http://bar.example/auth", HeaderName := "X-Signature", CookieName := "" }

/-- Two upstreams sharing the header name `X-Signature`. -/
def optsC7w : AuthDelegateOptions :=
  { Port := 443, SslCert := "", SslKey := "",
    Upstreams := [
      { URL := "https://h1.example/auth", HeaderName := "X-Signature", CookieName := "" },
      { URL := "https://h2.example/auth", HeaderName := "X-Signature", CookieName := "" }] }

def optsC7wP : AuthDelegateOptions :=
  { Port := 443, SslCert := "", SslKey := "",
    Upstreams := [
      { URL := "https://h1.example/auth", HeaderName := "X-Signature", CookieName := "",
        parsedURL := some uH1 },
      { URL := "https://h2.example/auth", HeaderName := "X-Signature", CookieName := "",
        parsedURL := some uH2 }] }

/-- Header name `b` repeated before header name `a`: first-insertion order
is `b`, `a`. -/
def optsC7c : AuthDelegateOptions :=
  { Port := 443, SslCert := "", SslKey := "",
    Upstreams := [
      { URL := "http://b1.example/auth", HeaderName := "b", CookieName := "" },
      { URL := "http://b2.example/auth", HeaderName := "b", CookieName := "" },
      { URL := "http://a1.example/auth", HeaderName := "a", CookieName := "" },
      { URL := "http://a2.example/auth", HeaderName := "a", CookieName := "" }] }

def optsC8c : AuthDelegateOptions :=
  { Port := 0, SslCert := "", SslKey := "", Upstreams := [] }

def optsC8w : AuthDelegateOptions :=
  { Port := 443, SslCert := "", SslKey := "", Upstreams := [] }

def upC9 : AuthDelegateUpstream :=
  { URL := ":foo", HeaderName := "X-Signature", CookieName := "" }

def optsC9 : AuthDelegateOptions :=
  { Port := 443, SslCert := "", SslKey := "", Upstreams := [upC9] }

/-- The three-upstream configuration of the repository's default JSON
config. -/
def optsC10 : AuthDelegateOptions :=
  { Port := 443, SslCert := "", SslKey := "",
    Upstreams := [
      { URL := "https://foo.com/auth", HeaderName := "", CookieName := "_oauth2_proxy" },
      { URL := "http://127.0.0.1:8080/auth", HeaderName := "X-Signature", CookieName := "" },
      { URL := "https://foo.com/auth", HeaderName := "", CookieName := "" }] }

def optsC10P : AuthDelegateOptions :=
  { Port := 443, SslCert := "", SslKey := "",
    Upstreams := [
      { URL := "https://foo.com/auth", HeaderName := "", CookieName := "_oauth2_proxy",
        parsedURL := some uFoo },
      { URL := "http://127.0.0.1:8080/auth", HeaderName := "X-Signature", CookieName := "",
        parsedURL := some u127 },
      { URL := "https://foo.com/auth", HeaderName := "", CookieName := "",
        parsedURL := some uFoo }] }

/-! ### Claims C6 – C8 -/

/-- C6, corrected: with exactly one default upstream, validation rejects
precisely when that default's URL differs from the URL of the *last*
upstream — the check compares URL strings, not positions — and the message
then identifies the default's URL.  (A non-last default sharing the last
upstream's URL is accepted; see the counterexample.) -/
theorem C6_single_default_url_mismatch_rejected (fs : FS)
    (opts opts' : AuthDelegateOptions) (msgs : List String) (d : String)
    (lastU : AuthDelegateUpstream)
    (hval : Validate fs opts = some (opts', msgs))
    (hdef : defaultURLs opts.Upstreams = [d])
    (hlast : opts.Upstreams.getLast? = some lastU)
    (hne : d ≠ lastU.URL) :
    ("upstream without header_name or cookie_name not last in upstream list: " ++ d)
      ∈ msgs ∧ msgs ≠ [] := by
  have hnil : opts.Upstreams ≠ [] := by
    intro hn
    rw [hn] at hdef
    simp [defaultURLs] at hdef
  obtain ⟨us', m', ds, cn, hn, lastU', hloop, hopts, hgl, hmsgs⟩ :=
    validateUpstreams_some hval hnil
  obtain ⟨t, hm, hmap, hds, hcn, hhn, _⟩ := upstreamsLoop_some _ _ _ _ _ _ _ _ _ _ hloop
  have hds' : ds = [d] := by rw [hds, hdef]; simp
  have hlastmap : us'.getLast?.map (fun x => x.URL) =
      opts.Upstreams.getLast?.map (fun x => x.URL) := by
    rw [← List.getLast?_map, ← List.getLast?_map, hmap]
  have hURLeq : lastU'.URL = lastU.URL := by
    rw [hgl, hlast] at hlastmap
    simpa using hlastmap
  have hvdu : validateDefaultUpstreams [d] lastU'
      (validateNameCounts "header names" hn (validateNameCounts "cookie names" cn m')) =
      validateNameCounts "header names" hn (validateNameCounts "cookie names" cn m') ++
        ["upstream without header_name or cookie_name not last in upstream list: " ++ d] := by
    unfold validateDefaultUpstreams
    simp only [List.getLast?_singleton, List.length_singleton]
    rw [if_neg (by omega), if_pos (by rw [hURLeq]; exact hne)]
  rw [hds', hvdu] at hmsgs
  constructor
  · rw [hmsgs]; simp
  · rw [hmsgs]; simp

/-- Witness for C6's corrected statement: the sole default `foo.com` is
listed first and the last upstream's URL is `bar.example`, so validation
emits the message naming `foo.com`. -/
theorem C6_single_default_url_mismatch_rejected_witness :
    ("upstream without header_name or cookie_name not last in upstream list: "
        ++ "https://foo.com/auth")
      ∈ ["upstream without header_name or cookie_name not last in upstream list: https://foo.com/auth"] ∧
    (["upstream without header_name or cookie_name not last in upstream list: https://foo.com/auth"] :
      List String) ≠ [] :=
  C6_single_default_url_mismatch_rejected fsAll optsC6w optsC6wP
    ["upstream without header_name or cookie_name not last in upstream list: https://foo.com/auth"]
    "https://foo.com/auth" upC6wLast (by decide) (by decide) (by decide) (by decide)

/-- Counterexample to C6 as stated: the first upstream is a default rule and
is not last (the list has two entries), yet — because its URL string equals
the last upstream's URL — validation accepts the configuration outright. -/
theorem C6_counterexample :
    optsC6c.Upstreams[0]? =
      some { URL := "https://foo.com/auth", HeaderName := "", CookieName := "",
             parsedURL := none } ∧
    optsC6c.Upstreams.length = 2 ∧
    Validate fsAll optsC6c = some (optsC6cP, []) ∧
    NewAuthDelegateOptions fsAll optsC6c = some (.ok optsC6cP) := by
  refine ⟨by decide, by decide, by decide, ?_⟩
  rfl

/-- C7, corrected: a non-empty header name borne by more than one upstream
makes validation emit "repeated header names: " followed by the comma-joined
repeated names in map-iteration order (unspecified in Go; realized here as
first-insertion order — the list is *not* sorted); the repeated name is
listed and the empty name never is.  Symmetrically for cookie names. -/
theorem C7_repeated_names_reported (fs : FS) (opts opts' : AuthDelegateOptions)
    (msgsOut : List String) (h : String)
    (hval : Validate fs opts = some (opts', msgsOut)) (hne : h ≠ "") :
    (2 ≤ (opts.Upstreams.map (fun x => x.HeaderName)).count h →
      ∃ names, ("repeated header names: " ++ String.intercalate ", " names) ∈ msgsOut ∧
        h ∈ names ∧ "" ∉ names) ∧
    (2 ≤ (opts.Upstreams.map (fun x => x.CookieName)).count h →
      ∃ names, ("repeated cookie names: " ++ String.intercalate ", " names) ∈ msgsOut ∧
        h ∈ names ∧ "" ∉ names) := by
  by_cases hnil : opts.Upstreams = []
  · constructor <;> intro hcount <;> rw [hnil] at hcount <;> simp at hcount
  · obtain ⟨us', m', ds, cn, hn, lastU, hloop, hopts, hgl, hmsgs⟩ :=
      validateUpstreams_some hval hnil
    obtain ⟨t, hm, hmap, hds, hcn, hhn, _⟩ := upstreamsLoop_some _ _ _ _ _ _ _ _ _ _ hloop
    constructor
    · intro hcount
      have hfc : findCount hn h = (opts.Upstreams.map (fun x => x.HeaderName)).count h := by
        rw [hhn, findCount_foldl]
        simp [findCount]
      have hpos : 1 < findCount hn h := by omega
      have hmem := findCount_mem hn h (by omega)
      obtain ⟨names, hvnc, hmemn, hnotin⟩ :=
        validateNameCounts_mem "header names" hn
          (validateNameCounts "cookie names" cn m') h (findCount hn h) hmem hne hpos
      obtain ⟨t3, hdu⟩ := validateDefaultUpstreams_append ds lastU _
      refine ⟨names, ?_, hmemn, hnotin⟩
      rw [hmsgs, hdu, hvnc]
      simp
    · intro hcount
      have hfc : findCount cn h = (opts.Upstreams.map (fun x => x.CookieName)).count h := by
        rw [hcn, findCount_foldl]
        simp [findCount]
      have hpos : 1 < findCount cn h := by omega
      have hmem := findCount_mem cn h (by omega)
      obtain ⟨names, hvnc, hmemn, hnotin⟩ :=
        validateNameCounts_mem "cookie names" cn m' h (findCount cn h) hmem hne hpos
      obtain ⟨t2, hvnc2⟩ :=
        validateNameCounts_append "header names" hn (validateNameCounts "cookie names" cn m')
      obtain ⟨t3, hdu⟩ := validateDefaultUpstreams_append ds lastU _
      refine ⟨names, ?_, hmemn, hnotin⟩
      rw [hmsgs, hdu, hvnc2, hvnc]
      simp

/-- Witness for C7's corrected statement: `X-Signature` on two upstreams is
reported in the repeated-header-names message. -/
theorem C7_repeated_names_reported_witness :
    ∃ names, ("repeated header names: " ++ String.intercalate ", " names) ∈
        ["repeated header names: X-Signature"] ∧
      "X-Signature" ∈ names ∧ "" ∉ names :=
  (C7_repeated_names_reported fsAll optsC7w optsC7wP
      ["repeated header names: X-Signature"] "X-Signature" (by decide) (by decide)).1
    (by decide)

/-- Counterexample to C7 as stated: with header name `b` repeated before
header name `a`, the emitted message joins the names in map-iteration
(first-insertion) order — "b, a" — and the sorted join "a, b" is not
emitted. -/
theorem C7_counterexample :
    (Validate fsAll optsC7c).map (fun p => p.2) = some ["repeated header names: b, a"] ∧
    "repeated header names: a, b" ∉ ["repeated header names: b, a"] := by
  refine ⟨?_, by decide⟩
  rfl

/-- C8, corrected: with zero upstreams, the upstream validator contributes
exactly "no upstreams defined" and skips every further upstream check
(returning the options untouched); overall validation fails, producing no
configuration object — and the aggregate error is exactly
"Invalid options:\n  no upstreams defined" provided the port is positive and
no TLS material is configured (otherwise port/TLS messages accompany it). -/
theorem C8_no_upstreams (fs : FS) (opts : AuthDelegateOptions) (msgs : List String)
    (hempty : opts.Upstreams = []) :
    validateUpstreams opts msgs = some (opts, msgs ++ ["no upstreams defined"]) ∧
    (0 < opts.Port → opts.SslCert = "" → opts.SslKey = "" →
      NewAuthDelegateOptions fs opts =
        some (.error "Invalid options:\n  no upstreams defined")) := by
  constructor
  · unfold validateUpstreams
    rw [if_pos hempty]
  · intro hp hc hk
    have h1 : validatePort opts [] = [] := by
      unfold validatePort
      rw [if_neg (by omega)]
    have h2 : validateSsl fs opts [] = [] := by
      unfold validateSsl
      rw [hc, hk]
      simp
    have h3 : validateUpstreams opts [] = some (opts, ["no upstreams defined"]) := by
      unfold validateUpstreams
      rw [if_pos hempty]
      simp
    simp only [NewAuthDelegateOptions, Validate]
    rw [h1, h2, h3]
    rfl

/-- Witness for C8's corrected statement at the empty-upstream options with
port 443 and no TLS paths. -/
theorem C8_no_upstreams_witness :
    validateUpstreams optsC8w [] = some (optsC8w, [] ++ ["no upstreams defined"]) ∧
    NewAuthDelegateOptions fsAll optsC8w =
      some (.error "Invalid options:\n  no upstreams defined") :=
  ⟨(C8_no_upstreams fsAll optsC8w [] rfl).1,
   (C8_no_upstreams fsAll optsC8w [] rfl).2 (by decide) rfl rfl⟩

/-- Counterexample to C8 as stated: with zero upstreams and port 0, the
failure carries two messages, not exactly "no upstreams defined". -/
theorem C8_counterexample :
    Validate fsAll optsC8c =
      some (optsC8c, ["port must be specified and greater than zero", "no upstreams defined"]) ∧
    (["port must be specified and greater than zero", "no upstreams defined"] : List String)
      ≠ ["no upstreams defined"] := by decide

/-! ### Claims C9 – C10 -/

theorem upstreamsLoop_none_of_error :
    ∀ (us : List AuthDelegateUpstream) (msgs ds : List String)
      (cn hn : List (String × Nat)) (u : AuthDelegateUpstream) (e : String),
      u ∈ us → urlParse u.URL = .error e →
      upstreamsLoop us msgs ds cn hn = none := by
  intro us
  induction us with
  | nil => intro msgs ds cn hn u e hmem _; simp at hmem
  | cons u0 rest ih =>
    intro msgs ds cn hn u e hmem herr
    rcases List.mem_cons.mp hmem with h1 | h2
    · subst h1
      have hv : validateUpstream u msgs = none := by
        simp [validateUpstream, herr]
      unfold upstreamsLoop
      rw [hv]
    · cases hv : validateUpstream u0 msgs with
      | none =>
        unfold upstreamsLoop
        rw [hv]
      | some p =>
        obtain ⟨u1, m1⟩ := p
        unfold upstreamsLoop
        rw [hv]
        dsimp only []
        rw [ih _ _ _ _ u e h2 herr]

/-- C9: when an upstream's URL string is rejected by URL parsing, the
validator records the parse-failure message into its local list and then
reads `.Scheme` of the nil parsed URL, so `validateUpstream` — and with it
the whole `Validate` — panics (modelled as `none`) instead of returning the
aggregated error list. -/
theorem C9_parse_failure_crashes (fs : FS) (opts : AuthDelegateOptions)
    (u : AuthDelegateUpstream) (msgs : List String) (e : String)
    (hmem : u ∈ opts.Upstreams) (herr : urlParse u.URL = .error e) :
    validateUpstream u msgs = none ∧ Validate fs opts = none := by
  constructor
  · simp [validateUpstream, herr]
  · simp only [Validate]
    unfold validateUpstreams
    rw [if_neg (List.ne_nil_of_mem hmem)]
    rw [upstreamsLoop_none_of_error _ _ _ _ _ u e hmem herr]

/-- Witness for C9: the upstream URL `:foo` fails `url.Parse` ("missing
protocol scheme") and validation crashes. -/
theorem C9_parse_failure_crashes_witness :
    validateUpstream upC9 [] = none ∧ Validate fsAll optsC9 = none :=
  C9_parse_failure_crashes fsAll optsC9 upC9 [] "parse :foo: missing protocol scheme"
    (by decide) rfl

/-- C10: a validation run that succeeds with no error message leaves every
upstream with a parsed URL whose scheme is exactly `http` or `https` and
with at most one of the two match names set; the dispatch table is built
from exactly these (unmodified) fields, so every rule inherits the
invariant. -/
theorem C10_validated_invariants (fs : FS) (opts opts' : AuthDelegateOptions)
    (hval : Validate fs opts = some (opts', [])) :
    (∀ x ∈ opts'.Upstreams, ∃ pu, x.parsedURL = some pu ∧
      (pu.scheme = "http" ∨ pu.scheme = "https") ∧
      (x.HeaderName = "" ∨ x.CookieName = "")) ∧
    NewAuthDelegate opts' = opts'.Upstreams.map (fun x =>
      { headerName := x.HeaderName, cookieName := x.CookieName,
        upstreamURL := x.parsedURL }) := by
  refine ⟨?_, NewAuthDelegate_eq_map opts'⟩
  by_cases hnil : opts.Upstreams = []
  · simp only [Validate] at hval
    unfold validateUpstreams at hval
    rw [if_pos hnil] at hval
    simp at hval
  · obtain ⟨us', m', ds, cn, hn, lastU, hloop, hopts, hgl, hmsgs⟩ :=
      validateUpstreams_some hval hnil
    obtain ⟨t, hm, hmap, hds, hcn, hhn, hinv⟩ := upstreamsLoop_some _ _ _ _ _ _ _ _ _ _ hloop
    obtain ⟨t1, h1⟩ := validateNameCounts_append "cookie names" cn m'
    obtain ⟨t2, h2⟩ := validateNameCounts_append "header names" hn
      (validateNameCounts "cookie names" cn m')
    obtain ⟨t3, h3⟩ := validateDefaultUpstreams_append ds lastU
      (validateNameCounts "header names" hn (validateNameCounts "cookie names" cn m'))
    rw [h3, h2, h1] at hmsgs
    have hm0 : m' = [] := by
      have hx := hmsgs.symm
      simp only [List.append_assoc, List.append_eq_nil] at hx
      exact hx.1
    have ht : t = [] := by
      rw [hm0] at hm
      exact (List.append_eq_nil.mp hm.symm).2
    intro x hx
    rw [hopts] at hx
    exact hinv ht x hx

/-- Witness for C10 at the repository's default three-upstream
configuration, which validates cleanly. -/
theorem C10_validated_invariants_witness :
    (∀ x ∈ optsC10P.Upstreams, ∃ pu, x.parsedURL = some pu ∧
      (pu.scheme = "http" ∨ pu.scheme = "https") ∧
      (x.HeaderName = "" ∨ x.CookieName = "")) ∧
    NewAuthDelegate optsC10P = optsC10P.Upstreams.map (fun x =>
      { headerName := x.HeaderName, cookieName := x.CookieName,
        upstreamURL := x.parsedURL }) :=
  C10_validated_invariants fsAll optsC10 optsC10P (by decide)
